import Mathlib

/-!
Verification development for the empathetic code reviewer pipeline
(`code_reviewer.py`): language detection, comment-severity classification,
quality scoring, resource linking, batch-severity selection and the
orchestrator's input validation.  Python strings are modelled as Lean
`String`s; Python float arithmetic on the score values is modelled with `ℚ`
(every operation the scorer performs — sums of multiples of 1/2 starting from
7.0, division by 4, subtraction from 10 — is exact in binary floating point
for the reachable values, so the rational model is faithful).  The external
text-generation service is modelled as an oracle argument.
-/

namespace CodeReviewer

/-- Test that `needle` occurs at the very start of `hay` (on character lists). -/
def leadsChars : List Char → List Char → Bool
  | [], _ => true
  | _ :: _, [] => false
  | a :: s, b :: t => a == b && leadsChars s t

/-- Test that `needle` occurs somewhere inside `hay` (on character lists). -/
def containsChars (needle : List Char) : List Char → Bool
  | [] => leadsChars needle []
  | b :: t => leadsChars needle (b :: t) || containsChars needle t

/-- Python's `needle in hay` substring test. -/
def substrOf (needle hay : String) : Bool :=
  containsChars needle.toList hay.toList

/-- Python's `str.lower()` (faithful on the ASCII text the pipeline uses). -/
def pyLower (s : String) : String :=
  String.mk (s.toList.map Char.toLower)

/-- The whitespace characters removed by Python's `str.strip()` (ASCII part). -/
def pyIsSpace (c : Char) : Bool :=
  c == ' ' || c == '\t' || c == '\n' || c == '\r' || c == '\x0b' || c == '\x0c'

/-- Python's `str.strip()`: drop leading and trailing whitespace. -/
def pyStrip (s : String) : String :=
  String.mk (((s.toList.dropWhile pyIsSpace).reverse.dropWhile pyIsSpace).reverse)

/-- Index of the first occurrence of `a` in `l` (length of `l` if absent). -/
def firstIdx {α : Type} [DecidableEq α] (a : α) : List α → Nat
  | [] => 0
  | b :: t => if b = a then 0 else firstIdx a t + 1

/-- The languages of `_init_language_configs` / `_detect_language`. -/
inductive Language
  | python
  | javascript
  | java
  | cpp
  | go
deriving DecidableEq, Repr

/-- Detection keywords tested for python in `_detect_language`. -/
def pythonDetectKeywords : List String :=
  ["def ", "class ", "import ", "from ", "elif", "__init__"]

/-- Detection keywords tested for javascript in `_detect_language`. -/
def javascriptDetectKeywords : List String :=
  ["function", "const ", "let ", "=>", "console.log"]

/-- Detection keywords tested for java in `_detect_language`. -/
def javaDetectKeywords : List String :=
  ["public class", "private ", "protected ", "import java"]

/-- Detection keywords tested for cpp in `_detect_language`. -/
def cppDetectKeywords : List String :=
  ["#include", "namespace", "std::", "template<"]

/-- Detection keywords tested for go in `_detect_language`. -/
def goDetectKeywords : List String :=
  ["func ", "package ", "import (", "type "]

/-- Python's `any(keyword in s for keyword in kws)`. -/
def matchesAny (kws : List String) (s : String) : Bool :=
  kws.any (fun k => substrOf k s)

/-- Model of `_detect_language`: the snippet is lower-cased AND stripped
(`code_snippet.lower().strip()`), then the keyword sets are tested in the
fixed order python, javascript, java, cpp, go, falling back to python. -/
def detectLanguage (code_snippet : String) : Language :=
  let code_lower := pyStrip (pyLower code_snippet)
  if matchesAny pythonDetectKeywords code_lower then .python
  else if matchesAny javascriptDetectKeywords code_lower then .javascript
  else if matchesAny javaDetectKeywords code_lower then .java
  else if matchesAny cppDetectKeywords code_lower then .cpp
  else if matchesAny goDetectKeywords code_lower then .go
  else .python

/-- The detection algorithm exactly as the specification words it: the snippet
is only lower-cased (no whitespace stripping) before the keyword sets are
tested in the same fixed order.  Kept separate from `detectLanguage` so the
two can be compared. -/
def detectLanguageSpecWords (code_snippet : String) : Language :=
  let code_lower := pyLower code_snippet
  if matchesAny pythonDetectKeywords code_lower then .python
  else if matchesAny javascriptDetectKeywords code_lower then .javascript
  else if matchesAny javaDetectKeywords code_lower then .java
  else if matchesAny cppDetectKeywords code_lower then .cpp
  else if matchesAny goDetectKeywords code_lower then .go
  else .python

/-- The fixed priority order of `_detect_language`, with each language's
keyword set. -/
def detectionOrder : List (Language × List String) :=
  [(.python, pythonDetectKeywords),
   (.javascript, javascriptDetectKeywords),
   (.java, javaDetectKeywords),
   (.cpp, cppDetectKeywords),
   (.go, goDetectKeywords)]

/-- The severity levels returned by `_assess_comment_severity` (the source
uses the strings "harsh" / "moderate" / "neutral"). -/
inductive Severity
  | harsh
  | moderate
  | neutral
deriving DecidableEq, Repr

/-- The `harsh_indicators` list of `_assess_comment_severity`. -/
def harsh_indicators : List String :=
  ["bad", "terrible", "awful", "stupid", "dumb", "wrong", "never",
   "always", "completely", "totally", "absolutely", "obviously"]

/-- The `neutral_indicators` list of `_assess_comment_severity`. -/
def neutral_indicators : List String :=
  ["could", "might", "consider", "suggest", "perhaps", "maybe",
   "improvement", "better", "optimize"]

/-- Python's `sum(1 for indicator in inds if indicator in text)`. -/
def countIndicators (inds : List String) (text : String) : Nat :=
  inds.countP (fun ind => substrOf ind text)

/-- Model of `_assess_comment_severity`. -/
def assessCommentSeverity (comment : String) : Severity :=
  let comment_lower := pyLower comment
  let harsh_count := countIndicators harsh_indicators comment_lower
  let neutral_count := countIndicators neutral_indicators comment_lower
  if harsh_count > neutral_count then .harsh
  else if neutral_count > harsh_count then .neutral
  else .moderate

/-- The python `resources` table of `_init_language_configs`. -/
def pythonResources : List (String × String) :=
  [("naming", "[PEP 8 - Naming Conventions](https://peps.python.org/pep-0008/#naming-conventions)"),
   ("performance", "[Python Performance Tips](https://wiki.python.org/moin/PythonSpeed/PerformanceTips)"),
   ("comprehension", "[List Comprehensions](https://docs.python.org/3/tutorial/datastructures.html#list-comprehensions)"),
   ("style", "[PEP 8 - Style Guide](https://peps.python.org/pep-0008/)"),
   ("docstrings", "[PEP 257 - Docstring Conventions](https://peps.python.org/pep-0257/)")]

/-- The javascript `resources` table of `_init_language_configs`. -/
def javascriptResources : List (String × String) :=
  [("naming", "[JavaScript Naming Conventions](https://developer.mozilla.org/en-US/docs/MDN/Writing_guidelines/Writing_style_guide/Code_style_guide/JavaScript#naming_conventions)"),
   ("performance", "[JavaScript Performance Best Practices](https://developer.mozilla.org/en-US/docs/Learn/Performance/JavaScript)"),
   ("style", "[Airbnb JavaScript Style Guide](https://github.com/airbnb/javascript)"),
   ("async", "[Async/Await Best Practices](https://developer.mozilla.org/en-US/docs/Learn/JavaScript/Asynchronous/Async_await)"),
   ("es6", "[ES6 Features Guide](https://developer.mozilla.org/en-US/docs/Web/JavaScript/New_in_JavaScript/ECMAScript_6_support_in_Mozilla)")]

/-- The java `resources` table of `_init_language_configs`. -/
def javaResources : List (String × String) :=
  [("naming", "[Java Naming Conventions](https://www.oracle.com/java/technologies/javase/codeconventions-namingconventions.html)"),
   ("performance", "[Java Performance Tuning](https://docs.oracle.com/javase/8/docs/technotes/guides/performance/)"),
   ("style", "[Google Java Style Guide](https://google.github.io/styleguide/javaguide.html)"),
   ("concurrency", "[Java Concurrency Tutorial](https://docs.oracle.com/javase/tutorial/essential/concurrency/)")]

/-- The cpp `resources` table of `_init_language_configs`. -/
def cppResources : List (String × String) :=
  [("naming", "[C++ Core Guidelines - Naming](https://isocpp.github.io/CppCoreGuidelines/CppCoreGuidelines#S-naming)"),
   ("performance", "[C++ Performance Guidelines](https://isocpp.github.io/CppCoreGuidelines/CppCoreGuidelines#S-performance)"),
   ("style", "[Google C++ Style Guide](https://google.github.io/styleguide/cppguide.html)"),
   ("modern", "[Modern C++ Best Practices](https://isocpp.github.io/CppCoreGuidelines/CppCoreGuidelines)")]

/-- The go `resources` table of `_init_language_configs`. -/
def goResources : List (String × String) :=
  [("naming", "[Go Code Review Comments](https://github.com/golang/go/wiki/CodeReviewComments)"),
   ("performance", "[Go Performance Tips](https://github.com/golang/go/wiki/Performance)"),
   ("style", "[Effective Go](https://golang.org/doc/effective_go.html)"),
   ("fmt", "[Go Formatting Guidelines](https://golang.org/doc/effective_go.html#formatting)")]

/-- Resource table of a language (`self.language_configs[language]["resources"]`). -/
def langResources : Language → List (String × String)
  | .python => pythonResources
  | .javascript => javascriptResources
  | .java => javaResources
  | .cpp => cppResources
  | .go => goResources

/-- Python's `d.get(key, "")` on a resource table. -/
def lookupDefault (table : List (String × String)) (key : String) : String :=
  ((table.find? (fun p => p.1 == key)).map Prod.snd).getD ""

/-- Model of `_get_relevant_resources` with the language already resolved (in the
pipeline the detected `Language` is always passed in).  The appends of the
source are reproduced in order; the final `filter` models
`[r for r in resources if r]`. -/
def getRelevantResources (comment code_snippet : String) (language : Language) : List String :=
  let comment_lower := pyLower comment
  let code_lower := pyLower code_snippet
  let lr := langResources language
  let generic :=
    (if substrOf "variable" comment_lower || substrOf "naming" comment_lower then
      [lookupDefault lr "naming"] else []) ++
    (if substrOf "efficient" comment_lower || substrOf "performance" comment_lower
        || substrOf "loop" comment_lower then
      [lookupDefault lr "performance"] else []) ++
    (if substrOf "style" comment_lower || substrOf "formatting" comment_lower then
      [lookupDefault lr "style"] else [])
  let specific :=
    match language with
    | .python =>
        (if substrOf "comprehension" comment_lower
            || substrOf "list comprehension" comment_lower then
          [lookupDefault lr "comprehension"] else []) ++
        (if substrOf "== true" code_lower || substrOf "== false" code_lower then
          [lookupDefault lr "style"] else []) ++
        (if substrOf "function" comment_lower || substrOf "docstring" comment_lower then
          [lookupDefault lr "docstrings"] else [])
    | .javascript =>
        (if substrOf "async" comment_lower || substrOf "promise" comment_lower then
          [lookupDefault lr "async"] else []) ++
        (if substrOf "es6" comment_lower || substrOf "arrow" comment_lower
            || substrOf "const" comment_lower then
          [lookupDefault lr "es6"] else [])
    | .java =>
        (if substrOf "thread" comment_lower || substrOf "concurrent" comment_lower then
          [lookupDefault lr "concurrency"] else [])
    | .cpp =>
        (if substrOf "modern" comment_lower || substrOf "c++11" comment_lower
            || substrOf "c++14" comment_lower then
          [lookupDefault lr "modern"] else [])
    | .go =>
        (if substrOf "format" comment_lower || substrOf "gofmt" comment_lower then
          [lookupDefault lr "fmt"] else [])
  (generic ++ specific).filter (fun r => !(r == ""))

/-- The `all_resources` accumulation of `_enhance_with_resources`: resource
lists of all comments, concatenated in comment order. -/
def collectResources (comments : List String) (code_snippet : String)
    (language : Language) : List String :=
  comments.flatMap (fun c => getRelevantResources c code_snippet language)

/-- Keep-first deduplication with an explicit seen-set: the model of Python's
`list(dict.fromkeys(xs))` in `_enhance_with_resources`. -/
def dedupKeepFirstAux {α : Type} [DecidableEq α] (seen : List α) : List α → List α
  | [] => []
  | a :: t =>
    if a ∈ seen then dedupKeepFirstAux seen t
    else a :: dedupKeepFirstAux (a :: seen) t

/-- Python's `list(dict.fromkeys(xs))`: duplicates removed, first occurrences kept. -/
def dedupKeepFirst {α : Type} [DecidableEq α] (l : List α) : List α :=
  dedupKeepFirstAux [] l

/-- The `unique_resources` list assembled by `_enhance_with_resources`. -/
def uniqueResources (comments : List String) (code_snippet : String)
    (language : Language) : List String :=
  dedupKeepFirst (collectResources comments code_snippet language)

/-- Model of `_enhance_with_resources`: append the deduplicated resource section (if
any) to the generated review text. -/
def enhanceWithResources (review_content : String) (comments : List String)
    (code_snippet : String) (language : Language) : String :=
  let unique := uniqueResources comments code_snippet language
  if unique.isEmpty then review_content
  else
    review_content ++
      "\n\n## Additional Resources\n\nFor further learning, consider reviewing these resources:\n\n" ++
      String.join (unique.map (fun r => "- " ++ r ++ "\n"))

/-- The quality score record (`CodeQualityScore` dataclass); float fields are
modelled with `ℚ` (all reachable values are exact in both systems). -/
structure CodeQualityScore where
  overall_score : ℚ
  readability : ℚ
  performance : ℚ
  maintainability : ℚ
  best_practices : ℚ
  improvement_potential : ℚ
deriving DecidableEq, Repr

/-- The `severity_weights` table of `_calculate_code_quality_score`. -/
def severityWeight : Severity → ℚ
  | .harsh => -2
  | .moderate => -1
  | .neutral => -1/2

/-- Readability trigger words of `_calculate_code_quality_score`. -/
def readabilityTriggers : List String := ["naming", "variable", "unclear"]

/-- Performance trigger words of `_calculate_code_quality_score`. -/
def performanceTriggers : List String := ["efficient", "performance", "slow", "optimize"]

/-- Maintainability trigger words of `_calculate_code_quality_score`. -/
def maintainabilityTriggers : List String := ["maintainability", "complex", "structure"]

/-- Best-practices trigger words of `_calculate_code_quality_score`. -/
def bestPracticesTriggers : List String := ["convention", "style", "best practice", "standard"]

/-- The four running dimension scores inside `_calculate_code_quality_score`. -/
structure Dims where
  readability : ℚ
  performance : ℚ
  maintainability : ℚ
  best_practices : ℚ
deriving DecidableEq, Repr

/-- One iteration of the comment loop of `_calculate_code_quality_score`. -/
def applyCommentPenalties (d : Dims) (comment : String) : Dims :=
  let weight := severityWeight (assessCommentSeverity comment)
  let comment_lower := pyLower comment
  let d := if matchesAny readabilityTriggers comment_lower then
    { d with readability := d.readability + weight } else d
  let d := if matchesAny performanceTriggers comment_lower then
    { d with performance := d.performance + weight } else d
  let d := if matchesAny maintainabilityTriggers comment_lower then
    { d with maintainability := d.maintainability + weight } else d
  let d := if matchesAny bestPracticesTriggers comment_lower then
    { d with best_practices := d.best_practices + weight } else d
  d

/-- Python's `max(0, min(10, x))`. -/
def clamp010 (x : ℚ) : ℚ := max 0 (min 10 x)

/-- Model of `_calculate_code_quality_score` (the `code_snippet` and `language`
arguments are accepted but, as in the source, never used). -/
def calculateCodeQualityScore (code_snippet : String) (comments : List String)
    (language : Language) : CodeQualityScore :=
  let d := comments.foldl applyCommentPenalties ⟨7, 7, 7, 7⟩
  let readability := clamp010 d.readability
  let performance := clamp010 d.performance
  let maintainability := clamp010 d.maintainability
  let best_practices := clamp010 d.best_practices
  let overall_score := (readability + performance + maintainability + best_practices) / 4
  let improvement_potential := 10 - overall_score
  { overall_score := overall_score
    readability := readability
    performance := performance
    maintainability := maintainability
    best_practices := best_practices
    improvement_potential := improvement_potential }

/-- Python's `max(l, key=fun)` : first element of `l` whose key is maximal
(`max` only replaces its running best on a strictly greater key); `none` on
the empty list, where Python raises `ValueError`. -/
def pyMaxByKey {α : Type} (key : α → Nat) : List α → Option α
  | [] => none
  | a :: t => some (t.foldl (fun best x => if key x > key best then x else best) a)

/-- The `overall_severity` of `_generate_empathetic_review`:
`max(severities, key=severities.count)`. -/
def overallSeverity (comments : List String) : Option Severity :=
  let severities := comments.map assessCommentSeverity
  pyMaxByKey (fun s => severities.count s) severities

/-- The reviewer personas (`ReviewerPersona` enum). -/
inductive Persona
  | senior_developer
  | tech_lead
  | pair_programming
  | mentor
deriving DecidableEq, Repr

/-- Python values that can appear in the parsed JSON input dictionary. -/
inductive PyVal
  | str : String → PyVal
  | listV : List PyVal → PyVal
  | intV : Int → PyVal

/-- The parsed input dictionary (`input_data`): an association list. -/
def InputData : Type := List (String × PyVal)

/-- Python's `input_data[key]` / `key in input_data`. -/
def lookupKey (input_data : InputData) (key : String) : Option PyVal :=
  ((List.find? (fun p => p.1 == key) input_data)).map Prod.snd

/-- The validation performed at the top of `generate_review_report`: both
keys present, `review_comments` an instance of `list`, and that list
non-empty.  Nothing else is checked (in particular, neither the type nor the
emptiness of `code_snippet`, nor the element types of `review_comments`). -/
def validateInput (input_data : InputData) : Bool :=
  match lookupKey input_data "code_snippet", lookupKey input_data "review_comments" with
  | some _, some (.listV cs) => !cs.isEmpty
  | _, _ => false

/-- The acceptance condition exactly as the specification words it: a
non-empty string under `code_snippet` and a non-empty list of strings under
`review_comments`.  Kept separate from `validateInput` for comparison. -/
def validateInputSpecWords (input_data : InputData) : Bool :=
  match lookupKey input_data "code_snippet", lookupKey input_data "review_comments" with
  | some (.str s), some (.listV cs) =>
      !s.isEmpty && !cs.isEmpty &&
        cs.all (fun v => match v with | .str _ => true | _ => false)
  | _, _ => false

/-- Python exceptions as seen by a caller of `generate_review_report`:
either a `ValueError` (the typed validation error) or a plain `Exception`. -/
inductive PyError
  | valueError : String → PyError
  | exceptionError : String → PyError
deriving DecidableEq, Repr

/-- Model of `_generate_empathetic_review`, with the external chat-completion call
abstracted as the oracle `gen` (`Except.error msg` models a raised provider
exception, `Except.ok text` the returned message content).  The prompt texts
built from the persona and the batch severity condition only the external
call and are not observable in the returned value, so they are not
reproduced here; the batch-severity computation itself is `overallSeverity`.
On an empty comment list Python's `max` raises a `ValueError`. -/
def generateEmpatheticReview (code_snippet : String) (comments : List String)
    (language : Language) (gen : Except String String) :
    Except PyError String :=
  match overallSeverity comments with
  | none => .error (.valueError "max() arg is an empty sequence")
  | some _ =>
    match gen with
    | .error msg => .error (.exceptionError ("Error generating review: " ++ msg))
    | .ok content => .ok (pyStrip content)

/-- Display name of a persona (`self.persona.value.replace('_',' ').title()`). -/
def personaDisplayName : Persona → String
  | .senior_developer => "Senior Developer"
  | .tech_lead => "Tech Lead"
  | .pair_programming => "Pair Programming"
  | .mentor => "Mentor"

/-- Display name of a language (`language.title()`). -/
def languageTitle : Language → String
  | .python => "Python"
  | .javascript => "Javascript"
  | .java => "Java"
  | .cpp => "Cpp"
  | .go => "Go"

/-- Model of `generate_review_report`.  The body of the source is wrapped in a
`try/except Exception` that re-raises every failure as a plain
`Exception("Failed to generate review report: " + str(e))`; the model
reproduces that wrapping.  Dynamically ill-typed payloads that pass
validation but crash later (a non-string `code_snippet` or comment, which
would raise `AttributeError` inside `.lower()`) are modelled by the generic
runtime-error arm.  The numeric header interpolation of the overall score is
modelled with `toString` on `ℚ`; no claim inspects the header text. -/
def generateReviewReport (persona : Persona) (input_data : InputData)
    (gen : Except String String) :
    Except PyError (String × CodeQualityScore) :=
  match lookupKey input_data "code_snippet", lookupKey input_data "review_comments" with
  | none, _ =>
    .error (.exceptionError
      "Failed to generate review report: Input must contain 'code_snippet' and 'review_comments' keys")
  | _, none =>
    .error (.exceptionError
      "Failed to generate review report: Input must contain 'code_snippet' and 'review_comments' keys")
  | some code_v, some comments_v =>
    match comments_v with
    | .listV cs =>
      if cs.isEmpty then
        .error (.exceptionError
          "Failed to generate review report: 'review_comments' must be a non-empty list")
      else
        match code_v, cs.mapM (fun v => match v with | .str s => some s | _ => none) with
        | .str code_snippet, some comments =>
          let language := detectLanguage code_snippet
          let quality_score := calculateCodeQualityScore code_snippet comments language
          match generateEmpatheticReview code_snippet comments language gen with
          | .error (.valueError msg) =>
            .error (.exceptionError ("Failed to generate review report: " ++ msg))
          | .error (.exceptionError msg) =>
            .error (.exceptionError ("Failed to generate review report: " ++ msg))
          | .ok review_content =>
            let enhanced_review := enhanceWithResources review_content comments code_snippet language
            let header := "# Empathetic Code Review Report\n\n**Language:** " ++
              languageTitle language ++ " | **Reviewer Persona:** " ++
              personaDisplayName persona ++ " | **Overall Quality Score:** " ++
              toString quality_score.overall_score ++ "/10\n\n"
            .ok (header ++ enhanced_review, quality_score)
        | _, _ =>
          .error (.exceptionError
            "Failed to generate review report: runtime type error in payload")
    | _ =>
      .error (.exceptionError
        "Failed to generate review report: 'review_comments' must be a non-empty list")

/-- The severity breakdown of `analyze_code_quality`. -/
structure SeverityBreakdown where
  harsh : Nat
  moderate : Nat
  neutral : Nat
deriving DecidableEq, Repr

/-- The dictionary returned by `analyze_code_quality` (its `quality_metrics`
entry is the score record; the 1-decimal display rounding of `to_dict` is
presentation-only and not read by anything modelled here). -/
structure QualityAnalysis where
  language : Language
  quality_metrics : CodeQualityScore
  total_issues : Nat
  severity_breakdown : SeverityBreakdown
deriving DecidableEq, Repr

/-- Model of `analyze_code_quality`. -/
def analyzeCodeQuality (code_snippet : String) (comments : List String) :
    QualityAnalysis :=
  let language := detectLanguage code_snippet
  let quality_score := calculateCodeQualityScore code_snippet comments language
  { language := language
    quality_metrics := quality_score
    total_issues := comments.length
    severity_breakdown :=
      { harsh := comments.countP (fun c => assessCommentSeverity c == .harsh)
        moderate := comments.countP (fun c => assessCommentSeverity c == .moderate)
        neutral := comments.countP (fun c => assessCommentSeverity c == .neutral) } }

/-! ### Helper lemmas -/

theorem clamp010_nonneg (x : ℚ) : 0 ≤ clamp010 x :=
  le_max_left 0 _

theorem clamp010_le_ten (x : ℚ) : clamp010 x ≤ 10 :=
  max_le (by norm_num) (min_le_left 10 x)

theorem clamp010_le_of_le {x b : ℚ} (hb : 0 ≤ b) (hx : x ≤ b) : clamp010 x ≤ b :=
  max_le hb (le_trans (min_le_right 10 x) hx)

theorem clamp010_eq_self {x : ℚ} (h0 : 0 ≤ x) (h10 : x ≤ 10) : clamp010 x = x := by
  unfold clamp010
  rw [min_eq_right h10, max_eq_right h0]

theorem severityWeight_neg (s : Severity) : severityWeight s < 0 := by
  cases s <;> norm_num [severityWeight]

/-- One loop iteration of the scorer can only lower each dimension. -/
theorem applyCommentPenalties_le (d : Dims) (c : String) :
    (applyCommentPenalties d c).readability ≤ d.readability ∧
    (applyCommentPenalties d c).performance ≤ d.performance ∧
    (applyCommentPenalties d c).maintainability ≤ d.maintainability ∧
    (applyCommentPenalties d c).best_practices ≤ d.best_practices := by
  have hw : severityWeight (assessCommentSeverity c) ≤ 0 :=
    le_of_lt (severityWeight_neg (assessCommentSeverity c))
  unfold applyCommentPenalties
  dsimp only
  split_ifs <;> refine ⟨?_, ?_, ?_, ?_⟩ <;> simp <;> linarith

/-- The whole comment loop can only lower each dimension. -/
theorem foldl_penalties_le (comments : List String) (d : Dims) :
    (comments.foldl applyCommentPenalties d).readability ≤ d.readability ∧
    (comments.foldl applyCommentPenalties d).performance ≤ d.performance ∧
    (comments.foldl applyCommentPenalties d).maintainability ≤ d.maintainability ∧
    (comments.foldl applyCommentPenalties d).best_practices ≤ d.best_practices := by
  induction comments generalizing d with
  | nil => exact ⟨le_refl _, le_refl _, le_refl _, le_refl _⟩
  | cons c t ih =>
    have h1 := applyCommentPenalties_le d c
    have h2 := ih (applyCommentPenalties d c)
    exact ⟨le_trans h2.1 h1.1, le_trans h2.2.1 h1.2.1,
      le_trans h2.2.2.1 h1.2.2.1, le_trans h2.2.2.2 h1.2.2.2⟩

/-- Each comment is classified as exactly one of the three severities, so the
three breakdown counters partition the comment list. -/
theorem countP_severity_partition (comments : List String) :
    comments.countP (fun c => assessCommentSeverity c == Severity.harsh) +
    comments.countP (fun c => assessCommentSeverity c == Severity.moderate) +
    comments.countP (fun c => assessCommentSeverity c == Severity.neutral) =
      comments.length := by
  induction comments with
  | nil => rfl
  | cons c t ih =>
    simp only [List.countP_cons, List.length_cons]
    cases h : assessCommentSeverity c <;> simp [h] <;> omega

/-! ### Claim theorems -/

/-- C1: for every code snippet, comment list and language, each of the six
fields of the returned quality score lies in the closed interval [0, 10],
`overall_score` equals the unweighted mean of the four clamped base
dimensions, and `improvement_potential + overall_score = 10` exactly. -/
theorem C1_quality_score_invariants (code_snippet : String)
    (comments : List String) (language : Language) :
    (0 ≤ (calculateCodeQualityScore code_snippet comments language).overall_score ∧
      (calculateCodeQualityScore code_snippet comments language).overall_score ≤ 10) ∧
    (0 ≤ (calculateCodeQualityScore code_snippet comments language).readability ∧
      (calculateCodeQualityScore code_snippet comments language).readability ≤ 10) ∧
    (0 ≤ (calculateCodeQualityScore code_snippet comments language).performance ∧
      (calculateCodeQualityScore code_snippet comments language).performance ≤ 10) ∧
    (0 ≤ (calculateCodeQualityScore code_snippet comments language).maintainability ∧
      (calculateCodeQualityScore code_snippet comments language).maintainability ≤ 10) ∧
    (0 ≤ (calculateCodeQualityScore code_snippet comments language).best_practices ∧
      (calculateCodeQualityScore code_snippet comments language).best_practices ≤ 10) ∧
    (0 ≤ (calculateCodeQualityScore code_snippet comments language).improvement_potential ∧
      (calculateCodeQualityScore code_snippet comments language).improvement_potential ≤ 10) ∧
    (calculateCodeQualityScore code_snippet comments language).overall_score =
      ((calculateCodeQualityScore code_snippet comments language).readability +
       (calculateCodeQualityScore code_snippet comments language).performance +
       (calculateCodeQualityScore code_snippet comments language).maintainability +
       (calculateCodeQualityScore code_snippet comments language).best_practices) / 4 ∧
    (calculateCodeQualityScore code_snippet comments language).improvement_potential +
      (calculateCodeQualityScore code_snippet comments language).overall_score = 10 := by
  dsimp only [calculateCodeQualityScore]
  have hr0 := clamp010_nonneg (comments.foldl applyCommentPenalties ⟨7, 7, 7, 7⟩).readability
  have hr1 := clamp010_le_ten (comments.foldl applyCommentPenalties ⟨7, 7, 7, 7⟩).readability
  have hp0 := clamp010_nonneg (comments.foldl applyCommentPenalties ⟨7, 7, 7, 7⟩).performance
  have hp1 := clamp010_le_ten (comments.foldl applyCommentPenalties ⟨7, 7, 7, 7⟩).performance
  have hm0 := clamp010_nonneg (comments.foldl applyCommentPenalties ⟨7, 7, 7, 7⟩).maintainability
  have hm1 := clamp010_le_ten (comments.foldl applyCommentPenalties ⟨7, 7, 7, 7⟩).maintainability
  have hb0 := clamp010_nonneg (comments.foldl applyCommentPenalties ⟨7, 7, 7, 7⟩).best_practices
  have hb1 := clamp010_le_ten (comments.foldl applyCommentPenalties ⟨7, 7, 7, 7⟩).best_practices
  refine ⟨⟨by linarith, by linarith⟩, ⟨hr0, hr1⟩, ⟨hp0, hp1⟩, ⟨hm0, hm1⟩, ⟨hb0, hb1⟩,
    ⟨by linarith, by linarith⟩, rfl, by ring⟩

/-- C9: every severity penalty weight is strictly negative and each dimension
starts at the 7.0 baseline, so each of the four base dimensions is at most
7.0, the overall score is at most 7.0, and the improvement potential is at
least 3.0. -/
theorem C9_scores_at_most_baseline (code_snippet : String)
    (comments : List String) (language : Language) :
    (calculateCodeQualityScore code_snippet comments language).readability ≤ 7 ∧
    (calculateCodeQualityScore code_snippet comments language).performance ≤ 7 ∧
    (calculateCodeQualityScore code_snippet comments language).maintainability ≤ 7 ∧
    (calculateCodeQualityScore code_snippet comments language).best_practices ≤ 7 ∧
    (calculateCodeQualityScore code_snippet comments language).overall_score ≤ 7 ∧
    3 ≤ (calculateCodeQualityScore code_snippet comments language).improvement_potential := by
  dsimp only [calculateCodeQualityScore]
  have h := foldl_penalties_le comments ⟨7, 7, 7, 7⟩
  have hr : clamp010 (comments.foldl applyCommentPenalties ⟨7, 7, 7, 7⟩).readability ≤ 7 :=
    clamp010_le_of_le (by norm_num) h.1
  have hp : clamp010 (comments.foldl applyCommentPenalties ⟨7, 7, 7, 7⟩).performance ≤ 7 :=
    clamp010_le_of_le (by norm_num) h.2.1
  have hm : clamp010 (comments.foldl applyCommentPenalties ⟨7, 7, 7, 7⟩).maintainability ≤ 7 :=
    clamp010_le_of_le (by norm_num) h.2.2.1
  have hb : clamp010 (comments.foldl applyCommentPenalties ⟨7, 7, 7, 7⟩).best_practices ≤ 7 :=
    clamp010_le_of_le (by norm_num) h.2.2.2
  exact ⟨hr, hp, hm, hb, by linarith, by linarith⟩

/-- C10: `analyze_code_quality` assigns each comment to exactly one of the
three severities: each severity value occurs exactly once in the severity
enumeration, the three breakdown counters sum to `total_issues`, and
`total_issues` is the length of the comment list. -/
theorem C10_severity_partition (code_snippet : String) (comments : List String) :
    (analyzeCodeQuality code_snippet comments).severity_breakdown.harsh +
      (analyzeCodeQuality code_snippet comments).severity_breakdown.moderate +
      (analyzeCodeQuality code_snippet comments).severity_breakdown.neutral =
      (analyzeCodeQuality code_snippet comments).total_issues ∧
    (analyzeCodeQuality code_snippet comments).total_issues = comments.length ∧
    ∀ c : String,
      [Severity.harsh, Severity.moderate, Severity.neutral].count
        (assessCommentSeverity c) = 1 := by
  refine ⟨countP_severity_partition comments, rfl, ?_⟩
  intro c
  cases assessCommentSeverity c <;> rfl

/-- C3: severity classification is total and deterministic: it returns harsh
exactly when the (lower-cased, substring-containment) harsh-indicator count
strictly exceeds the neutral-indicator count, neutral exactly when the
neutral count strictly exceeds the harsh count, and moderate exactly when
the two counts are equal (including when both are zero). -/
theorem C3_severity_decision_rule (comment : String) :
    (assessCommentSeverity comment = Severity.harsh ↔
      countIndicators neutral_indicators (pyLower comment) <
        countIndicators harsh_indicators (pyLower comment)) ∧
    (assessCommentSeverity comment = Severity.neutral ↔
      countIndicators harsh_indicators (pyLower comment) <
        countIndicators neutral_indicators (pyLower comment)) ∧
    (assessCommentSeverity comment = Severity.moderate ↔
      countIndicators harsh_indicators (pyLower comment) =
        countIndicators neutral_indicators (pyLower comment)) := by
  unfold assessCommentSeverity
  dsimp only
  split_ifs with h1 h2 <;> refine ⟨?_, ?_, ?_⟩ <;> simp <;> omega

/-- C2 counterexample: the detection the specification describes (lower-case
only, then first keyword-set match in priority order) disagrees with the
code on a snippet whose only `"def "` occurrence is destroyed by the
`.strip()` the code additionally performs: the described algorithm yields
python, the code yields cpp. -/
theorem C2_counterexample_strip :
    detectLanguageSpecWords "#include <q> def " = Language.python ∧
    detectLanguage "#include <q> def " = Language.cpp ∧
    detectLanguage "#include <q> def " ≠
      detectLanguageSpecWords "#include <q> def " := by
  refine ⟨by decide, by decide, by decide⟩

/-- C2 amended: language detection is a total pure function; it lower-cases
AND strips leading/trailing whitespace from the snippet, then returns the
first language in the fixed priority order python, javascript, java, cpp,
go whose keyword set has a substring match, falling back to python. -/
theorem C2_detection_first_match (code_snippet : String) :
    detectLanguage code_snippet =
      (((detectionOrder.find?
            (fun p => matchesAny p.2 (pyStrip (pyLower code_snippet)))).map
          Prod.fst).getD Language.python) := by
  unfold detectLanguage detectionOrder
  dsimp only
  cases hp : matchesAny pythonDetectKeywords (pyStrip (pyLower code_snippet)) <;>
  cases hj : matchesAny javascriptDetectKeywords (pyStrip (pyLower code_snippet)) <;>
  cases hja : matchesAny javaDetectKeywords (pyStrip (pyLower code_snippet)) <;>
  cases hc : matchesAny cppDetectKeywords (pyStrip (pyLower code_snippet)) <;>
  cases hg : matchesAny goDetectKeywords (pyStrip (pyLower code_snippet)) <;>
  simp [List.find?, hp, hj, hja, hc, hg]

/-- C4 counterexample: an input whose `code_snippet` is the empty string
(with a valid non-empty `review_comments` list of strings) is accepted by
the orchestrator's validation, although the claimed acceptance condition
requires a non-empty `code_snippet`. -/
theorem C4_counterexample_empty_snippet :
    validateInput
        [("code_snippet", PyVal.str ""),
         ("review_comments", PyVal.listV [PyVal.str "ok"])] = true ∧
    validateInputSpecWords
        [("code_snippet", PyVal.str ""),
         ("review_comments", PyVal.listV [PyVal.str "ok"])] = false ∧
    validateInput
        [("code_snippet", PyVal.str "print(1)"),
         ("review_comments", PyVal.listV [PyVal.intV 3])] = true ∧
    validateInputSpecWords
        [("code_snippet", PyVal.str "print(1)"),
         ("review_comments", PyVal.listV [PyVal.intV 3])] = false := by
  refine ⟨rfl, rfl, rfl, rfl⟩

/-- C4 amended: a syntactically valid structured input is accepted by the
orchestrator's validation if and only if both keys are present and
`review_comments` holds a non-empty list; neither the type nor the
emptiness of `code_snippet` nor the element types of `review_comments` are
checked.  Any input missing either key, or whose `review_comments` is empty
or not a list, is rejected. -/
theorem C4_validation_characterization (input_data : InputData) :
    validateInput input_data = true ↔
      ((lookupKey input_data "code_snippet").isSome ∧
        ∃ cs, lookupKey input_data "review_comments" = some (PyVal.listV cs) ∧
          cs ≠ []) := by
  unfold validateInput
  cases h1 : lookupKey input_data "code_snippet" <;>
    cases h2 : lookupKey input_data "review_comments" <;> simp
  case some.some v w =>
    cases w <;> simp [List.isEmpty_iff]

/-- C8 counterexample: a snippet that does contain `"def "` but whose only
occurrence sits at the stripped trailing edge is detected as cpp, not
python, so "code containing `def ` → detected language = python" fails as
stated. -/
theorem C8_counterexample_trailing_def :
    substrOf "def " "#include <w>\ndef " = true ∧
    detectLanguage "#include <w>\ndef " = Language.cpp ∧
    detectLanguage "#include <w>\ndef " ≠ Language.python := by
  refine ⟨by decide, by decide, by decide⟩

/-- C8 amended: for every code snippet whose lower-cased, stripped text
contains `"def "`, and the three scenario comments, the detected language is
python, readability is 5.0 < 7.0 (the naming comment is harsh, −2.0, and
hits the readability triggers), and the overall score is 6.25 < 7.0. -/
theorem C8_scenario_a (code_snippet : String)
    (h : substrOf "def " (pyStrip (pyLower code_snippet)) = true) :
    detectLanguage code_snippet = Language.python ∧
    (calculateCodeQualityScore code_snippet
        ["This is inefficient.", "Variable 'u' is a bad name.",
         "Boolean comparison '== True' is redundant."] Language.python).readability < 7 ∧
    (calculateCodeQualityScore code_snippet
        ["This is inefficient.", "Variable 'u' is a bad name.",
         "Boolean comparison '== True' is redundant."] Language.python).overall_score < 7 := by
  have hdetect : matchesAny pythonDetectKeywords (pyStrip (pyLower code_snippet)) = true := by
    unfold matchesAny pythonDetectKeywords
    simp only [List.any_eq_true]
    exact ⟨"def ", by simp, h⟩
  have hstep1 : applyCommentPenalties ⟨7, 7, 7, 7⟩ "This is inefficient." = ⟨7, 6, 7, 7⟩ := by
    unfold applyCommentPenalties
    rw [show assessCommentSeverity "This is inefficient." = Severity.moderate from by decide]
    norm_num [severityWeight,
      show matchesAny readabilityTriggers (pyLower "This is inefficient.") = false from by decide,
      show matchesAny performanceTriggers (pyLower "This is inefficient.") = true from by decide,
      show matchesAny maintainabilityTriggers (pyLower "This is inefficient.") = false from by decide,
      show matchesAny bestPracticesTriggers (pyLower "This is inefficient.") = false from by decide]
  have hstep2 : applyCommentPenalties ⟨7, 6, 7, 7⟩ "Variable 'u' is a bad name." = ⟨5, 6, 7, 7⟩ := by
    unfold applyCommentPenalties
    rw [show assessCommentSeverity "Variable 'u' is a bad name." = Severity.harsh from by decide]
    norm_num [severityWeight,
      show matchesAny readabilityTriggers (pyLower "Variable 'u' is a bad name.") = true from by decide,
      show matchesAny performanceTriggers (pyLower "Variable 'u' is a bad name.") = false from by decide,
      show matchesAny maintainabilityTriggers (pyLower "Variable 'u' is a bad name.") = false from by decide,
      show matchesAny bestPracticesTriggers (pyLower "Variable 'u' is a bad name.") = false from by decide]
  have hstep3 : applyCommentPenalties ⟨5, 6, 7, 7⟩
      "Boolean comparison '== True' is redundant." = ⟨5, 6, 7, 7⟩ := by
    unfold applyCommentPenalties
    norm_num [
      show matchesAny readabilityTriggers (pyLower "Boolean comparison '== True' is redundant.") = false from by decide,
      show matchesAny performanceTriggers (pyLower "Boolean comparison '== True' is redundant.") = false from by decide,
      show matchesAny maintainabilityTriggers (pyLower "Boolean comparison '== True' is redundant.") = false from by decide,
      show matchesAny bestPracticesTriggers (pyLower "Boolean comparison '== True' is redundant.") = false from by decide]
  have hfold : ["This is inefficient.", "Variable 'u' is a bad name.",
      "Boolean comparison '== True' is redundant."].foldl applyCommentPenalties
      ⟨7, 7, 7, 7⟩ = ⟨5, 6, 7, 7⟩ := by
    simp only [List.foldl, hstep1, hstep2, hstep3]
  refine ⟨?_, ?_, ?_⟩
  · unfold detectLanguage
    simp [hdetect]
  · dsimp only [calculateCodeQualityScore]
    rw [hfold]
    dsimp only
    rw [show clamp010 5 = 5 from clamp010_eq_self (by norm_num) (by norm_num)]
    norm_num
  · dsimp only [calculateCodeQualityScore]
    rw [hfold]
    dsimp only
    rw [show clamp010 5 = 5 from clamp010_eq_self (by norm_num) (by norm_num),
      show clamp010 6 = 6 from clamp010_eq_self (by norm_num) (by norm_num),
      show clamp010 7 = 7 from clamp010_eq_self (by norm_num) (by norm_num)]
    norm_num

/-- C8 witness: the amended scenario theorem applied to the hackathon
example snippet. -/
theorem C8_scenario_a_witness :
    substrOf "def "
      (pyStrip (pyLower "def get_active_users(users):\n    results = []")) = true ∧
    (detectLanguage "def get_active_users(users):\n    results = []" = Language.python ∧
     (calculateCodeQualityScore "def get_active_users(users):\n    results = []"
        ["This is inefficient.", "Variable 'u' is a bad name.",
         "Boolean comparison '== True' is redundant."] Language.python).readability < 7 ∧
     (calculateCodeQualityScore "def get_active_users(users):\n    results = []"
        ["This is inefficient.", "Variable 'u' is a bad name.",
         "Boolean comparison '== True' is redundant."] Language.python).overall_score < 7) :=
  ⟨by decide, C8_scenario_a "def get_active_users(users):\n    results = []" (by decide)⟩

/-- Recognizer for a raised typed `ValueError`. -/
def isTypedValueError {α : Type} : Except PyError α → Bool
  | .error (.valueError _) => true
  | _ => false

/-- Recognizer for a raised plain wrapped `Exception`. -/
def isWrappedException {α : Type} : Except PyError α → Bool
  | .error (.exceptionError _) => true
  | _ => false

/-- C5 counterexample: with an empty `review_comments` list the orchestrator
does fail before doing anything else, but the error the caller receives is
the generic wrapper `Exception("Failed to generate review report: ...")`
produced by the surrounding `try/except`, not a typed `ValueError`
(`InvalidInputError`). -/
theorem C5_counterexample_untyped_error :
    generateReviewReport Persona.senior_developer
        [("code_snippet", PyVal.str "def f(x):\n    return x"),
         ("review_comments", PyVal.listV [])] (Except.ok "full review text") =
      Except.error (PyError.exceptionError
        "Failed to generate review report: 'review_comments' must be a non-empty list") ∧
    isTypedValueError (generateReviewReport Persona.senior_developer
        [("code_snippet", PyVal.str "def f(x):\n    return x"),
         ("review_comments", PyVal.listV [])] (Except.ok "full review text")) = false := by
  refine ⟨rfl, rfl⟩

/-- C5 amended: on any input that fails validation (missing key, wrong-typed
or empty `review_comments`), `generate_review_report` fails immediately with
the wrapped validation message: the outcome is an error carrying no report
and no quality score, and it is entirely independent of the external
generation call's outcome (so neither detection, scoring nor the external
call can influence it). -/
theorem C5_invalid_input_rejected (persona : Persona) (input_data : InputData)
    (h : validateInput input_data = false) (gen gen' : Except String String) :
    isWrappedException (generateReviewReport persona input_data gen) = true ∧
    generateReviewReport persona input_data gen =
      generateReviewReport persona input_data gen' := by
  unfold validateInput at h
  unfold generateReviewReport
  cases h1 : lookupKey input_data "code_snippet" <;>
    cases h2 : lookupKey input_data "review_comments" <;>
    simp only [h1, h2] at h ⊢ <;>
    first
      | exact ⟨rfl, rfl⟩
      | exact ⟨rfl, trivial⟩
      | skip
  case some.some v w =>
    cases w <;>
      first
        | exact ⟨rfl, rfl⟩
        | skip
    case listV cs =>
      cases hcs : cs.isEmpty <;> simp only [hcs] at h ⊢
      · exact absurd h (by simp)
      · first
          | exact ⟨rfl, rfl⟩
          | exact ⟨rfl, trivial⟩

/-- C5 witness: the amended theorem applied to a concrete empty-comments
input, with two different external-generation outcomes. -/
theorem C5_invalid_input_witness :
    validateInput [("code_snippet", PyVal.str "x = 1"),
        ("review_comments", PyVal.listV [])] = false ∧
    (isWrappedException (generateReviewReport Persona.mentor
        [("code_snippet", PyVal.str "x = 1"), ("review_comments", PyVal.listV [])]
        (Except.error "network down")) = true ∧
     generateReviewReport Persona.mentor
        [("code_snippet", PyVal.str "x = 1"), ("review_comments", PyVal.listV [])]
        (Except.error "network down") =
       generateReviewReport Persona.mentor
        [("code_snippet", PyVal.str "x = 1"), ("review_comments", PyVal.listV [])]
        (Except.ok "a review")) :=
  ⟨rfl, C5_invalid_input_rejected Persona.mentor
    [("code_snippet", PyVal.str "x = 1"), ("review_comments", PyVal.listV [])]
    rfl (Except.error "network down") (Except.ok "a review")⟩

/-! ### First-occurrence index and keep-first deduplication lemmas -/

theorem firstIdx_cons_self {α : Type} [DecidableEq α] (a : α) (t : List α) :
    firstIdx a (a :: t) = 0 := by
  simp [firstIdx]

theorem firstIdx_cons_ne {α : Type} [DecidableEq α] {a b : α} (t : List α)
    (h : b ≠ a) : firstIdx a (b :: t) = firstIdx a t + 1 := by
  simp [firstIdx, h]

theorem dedupAux_mem {α : Type} [DecidableEq α] (l : List α) :
    ∀ (seen : List α) (x : α),
      x ∈ dedupKeepFirstAux seen l ↔ x ∈ l ∧ x ∉ seen := by
  induction l with
  | nil =>
    intro seen x
    simp [dedupKeepFirstAux]
  | cons a t ih =>
    intro seen x
    unfold dedupKeepFirstAux
    by_cases ha : a ∈ seen
    · rw [if_pos ha, ih]
      simp only [List.mem_cons]
      constructor
      · rintro ⟨hxt, hxs⟩
        exact ⟨Or.inr hxt, hxs⟩
      · rintro ⟨rfl | hxt, hxs⟩
        · exact absurd ha hxs
        · exact ⟨hxt, hxs⟩
    · rw [if_neg ha]
      simp only [List.mem_cons, ih]
      constructor
      · rintro (rfl | ⟨hxt, hxs⟩)
        · exact ⟨Or.inl rfl, ha⟩
        · exact ⟨Or.inr hxt, fun hx => hxs (Or.inr hx)⟩
      · rintro ⟨rfl | hxt, hxs⟩
        · exact Or.inl rfl
        · by_cases hxa : x = a
          · exact Or.inl hxa
          · exact Or.inr ⟨hxt, fun hor => hor.elim hxa hxs⟩

theorem dedupAux_pairwise {α : Type} [DecidableEq α] (l : List α) :
    ∀ seen : List α,
      (dedupKeepFirstAux seen l).Pairwise
        (fun x y => firstIdx x l < firstIdx y l) := by
  induction l with
  | nil =>
    intro seen
    simp [dedupKeepFirstAux]
  | cons a t ih =>
    intro seen
    unfold dedupKeepFirstAux
    by_cases ha : a ∈ seen
    · rw [if_pos ha]
      refine List.Pairwise.imp_of_mem ?_ (ih seen)
      intro x y hx hy hlt
      have hxa : a ≠ x := fun heq =>
        ((dedupAux_mem t seen x).mp hx).2 (heq ▸ ha)
      have hya : a ≠ y := fun heq =>
        ((dedupAux_mem t seen y).mp hy).2 (heq ▸ ha)
      rw [firstIdx_cons_ne t hxa, firstIdx_cons_ne t hya]
      omega
    · rw [if_neg ha]
      refine List.Pairwise.cons ?_ ?_
      · intro y hy
        have hya : a ≠ y := fun heq =>
          ((dedupAux_mem t (a :: seen) y).mp hy).2 (heq ▸ List.mem_cons_self a seen)
        rw [firstIdx_cons_self, firstIdx_cons_ne t hya]
        omega
      · refine List.Pairwise.imp_of_mem ?_ (ih (a :: seen))
        intro x y hx hy hlt
        have hxa : a ≠ x := fun heq =>
          ((dedupAux_mem t (a :: seen) x).mp hx).2 (heq ▸ List.mem_cons_self a seen)
        have hya : a ≠ y := fun heq =>
          ((dedupAux_mem t (a :: seen) y).mp hy).2 (heq ▸ List.mem_cons_self a seen)
        rw [firstIdx_cons_ne t hxa, firstIdx_cons_ne t hya]
        omega

theorem dedupKeepFirst_nodup {α : Type} [DecidableEq α] (l : List α) :
    (dedupKeepFirst l).Nodup := by
  refine (dedupAux_pairwise l []).imp ?_
  intro x y hlt heq
  rw [heq] at hlt
  exact lt_irrefl _ hlt

theorem dedupKeepFirst_mem {α : Type} [DecidableEq α] (l : List α) (x : α) :
    x ∈ dedupKeepFirst l ↔ x ∈ l := by
  rw [dedupKeepFirst, dedupAux_mem]
  simp

/-- C6 counterexample: a single call of the resource linker can return the
same link twice (the style link fires once from the comment's "style"
trigger and once from the `"== true"` code trigger), so the per-call result
is not duplicate-free as claimed. -/
theorem C6_counterexample_duplicate_links :
    getRelevantResources "Fix the style." "if x == True: pass" Language.python =
      ["[PEP 8 - Style Guide](https://peps.python.org/pep-0008/)",
       "[PEP 8 - Style Guide](https://peps.python.org/pep-0008/)"] ∧
    ¬ (getRelevantResources "Fix the style." "if x == True: pass"
        Language.python).Nodup := by
  refine ⟨by decide, by decide⟩

/-- C6 amended: every link a single resource-linker call returns is a
non-empty label (empty placeholders are filtered out), but the per-call list
may contain duplicates; at assembly time the collected links are
deduplicated by label preserving first-seen order: the assembled list has no
duplicates, contains exactly the collected labels, and is ordered by first
occurrence in the collected sequence. -/
theorem C6_resources_amended (comment : String) (comments : List String)
    (code_snippet : String) (language : Language) :
    "" ∉ getRelevantResources comment code_snippet language ∧
    (uniqueResources comments code_snippet language).Nodup ∧
    (∀ r, r ∈ uniqueResources comments code_snippet language ↔
        r ∈ collectResources comments code_snippet language) ∧
    (uniqueResources comments code_snippet language).Pairwise
      (fun x y => firstIdx x (collectResources comments code_snippet language) <
        firstIdx y (collectResources comments code_snippet language)) := by
  refine ⟨?_, dedupKeepFirst_nodup _, ?_, dedupAux_pairwise _ []⟩
  · intro hmem
    have hp := List.of_mem_filter hmem
    simp at hp
  · intro r
    exact dedupKeepFirst_mem _ r

/-! ### Characterization of Python `max(l, key=l.count)` -/

theorem le_foldl_max {α : Type} (key : α → Nat) (t : List α) :
    ∀ a : Nat, a ≤ t.foldl (fun m x => max m (key x)) a := by
  induction t with
  | nil => intro a; exact le_refl a
  | cons x t ih =>
    intro a
    rw [List.foldl_cons]
    exact le_trans (Nat.le_max_left a (key x)) (ih (max a (key x)))

theorem mem_le_foldl_max {α : Type} (key : α → Nat) (t : List α) :
    ∀ (a : Nat) (x : α), x ∈ t → key x ≤ t.foldl (fun m y => max m (key y)) a := by
  induction t with
  | nil => intro a x hx; cases hx
  | cons b t ih =>
    intro a x hx
    rw [List.foldl_cons]
    rcases List.mem_cons.mp hx with rfl | hxt
    · exact le_trans (Nat.le_max_right a (key x)) (le_foldl_max key t _)
    · exact ih _ x hxt

/-- Python's `max(b :: t, key=key)` is the first element of `b :: t` whose
key equals the maximum key: the running best is only replaced on a strictly
greater key. -/
theorem foldl_pyMaxStep_eq_find? {α : Type} (key : α → Nat) (t : List α) :
    ∀ b : α,
      (b :: t).find? (fun y => key y == t.foldl (fun m x => max m (key x)) (key b)) =
        some (t.foldl (fun best x => if key x > key best then x else best) b) := by
  induction t with
  | nil =>
    intro b
    simp [List.find?]
  | cons x t ih =>
    intro b
    rcases Nat.lt_or_ge (key b) (key x) with hlt | hge
    · -- the running best is replaced by x
      have hM : key x ≤ t.foldl (fun m y => max m (key y)) (key x) := le_foldl_max key t _
      have hmax : max (key b) (key x) = key x := Nat.max_eq_right (Nat.le_of_lt hlt)
      have hpb : (key b == t.foldl (fun m y => max m (key y)) (max (key b) (key x))) = false := by
        rw [hmax]
        exact beq_eq_false_iff_ne.mpr (Nat.ne_of_lt (lt_of_lt_of_le hlt hM))
      rw [List.foldl_cons, List.foldl_cons]
      rw [if_pos hlt]
      rw [List.find?_cons_of_neg _ (by simp [hpb])]
      have := ih x
      rw [hmax]
      exact this
    · -- the running best stays b
      have hmax : max (key b) (key x) = key b := Nat.max_eq_left hge
      have hb : key b ≤ t.foldl (fun m y => max m (key y)) (key b) := le_foldl_max key t _
      rw [List.foldl_cons, List.foldl_cons]
      rw [if_neg (Nat.not_lt.mpr hge), hmax]
      have ihb := ih b
      cases hpb : (key b == t.foldl (fun m y => max m (key y)) (key b)) with
      | true =>
        rw [List.find?_cons_of_pos _ (by simp [hpb])]
        rw [List.find?_cons_of_pos _ (by simp [hpb])] at ihb
        exact ihb
      | false =>
        have hbM : key b < t.foldl (fun m y => max m (key y)) (key b) :=
          Nat.lt_of_le_of_ne hb (beq_eq_false_iff_ne.mp hpb)
        have hpx : (key x == t.foldl (fun m y => max m (key y)) (key b)) = false :=
          beq_eq_false_iff_ne.mpr (Nat.ne_of_lt (lt_of_le_of_lt hge hbM))
        rw [List.find?_cons_of_neg _ (by simp [hpb]), List.find?_cons_of_neg _ (by simp [hpx])]
        rw [List.find?_cons_of_neg _ (by simp [hpb])] at ihb
        exact ihb

/-- The element `find?` returns sits no later than any other element
satisfying the predicate. -/
theorem find?_firstIdx_min {α : Type} [DecidableEq α] (p : α → Bool) (l : List α) :
    ∀ r : α, l.find? p = some r → ∀ s : α, p s = true →
      firstIdx r l ≤ firstIdx s l := by
  induction l with
  | nil =>
    intro r hr
    simp [List.find?] at hr
  | cons a t ih =>
    intro r hr s hs
    cases hpa : p a with
    | true =>
      rw [List.find?_cons_of_pos _ hpa] at hr
      injection hr with hr
      subst hr
      rw [firstIdx_cons_self]
      exact Nat.zero_le _
    | false =>
      rw [List.find?_cons_of_neg _ (by simp [hpa])] at hr
      have hpr := List.find?_some hr
      have hra : a ≠ r := fun heq => by
        rw [← heq, hpa] at hpr
        cases hpr
      have hsa : a ≠ s := fun heq => by
        rw [← heq, hpa] at hs
        cases hs
      rw [firstIdx_cons_ne t hra, firstIdx_cons_ne t hsa]
      exact Nat.succ_le_succ (ih r hr s hs)

/-- C7: for every non-empty comment list, the batch severity handed to the
prompt builder is a statistical mode of the per-comment severity sequence
(no severity occurs more often), and among severities tied for the maximal
count it is the one whose first occurrence in the sequence comes earliest.
(`overallSeverity` is `some` exactly on non-empty comment lists.) -/
theorem C7_overall_severity_mode (comments : List String) (r : Severity)
    (h : overallSeverity comments = some r) :
    r ∈ comments.map assessCommentSeverity ∧
    (∀ s : Severity, (comments.map assessCommentSeverity).count s ≤
        (comments.map assessCommentSeverity).count r) ∧
    (∀ s : Severity, s ∈ comments.map assessCommentSeverity →
        (comments.map assessCommentSeverity).count s =
          (comments.map assessCommentSeverity).count r →
        firstIdx r (comments.map assessCommentSeverity) ≤
          firstIdx s (comments.map assessCommentSeverity)) := by
  unfold overallSeverity pyMaxByKey at h
  dsimp only at h
  generalize hm : comments.map assessCommentSeverity = sevs at h ⊢
  cases sevs with
  | nil => simp at h
  | cons a t =>
    dsimp only at h
    injection h with h
    have hfind := foldl_pyMaxStep_eq_find? (fun s => (a :: t).count s) t a
    rw [h] at hfind
    have hmem : r ∈ a :: t := List.mem_of_find?_eq_some hfind
    have hkey : (a :: t).count r =
        t.foldl (fun m x => max m ((a :: t).count x)) ((a :: t).count a) := by
      have := List.find?_some hfind
      exact eq_of_beq this
    have hmax : ∀ s : Severity, s ∈ a :: t →
        (a :: t).count s ≤ t.foldl (fun m x => max m ((a :: t).count x)) ((a :: t).count a) := by
      intro s hsmem
      rcases List.mem_cons.mp hsmem with rfl | hst
      · exact le_foldl_max _ t _
      · exact mem_le_foldl_max (fun y => (a :: t).count y) t ((a :: t).count a) s hst
    refine ⟨hmem, ?_, ?_⟩
    · intro s
      by_cases hsmem : s ∈ a :: t
      · rw [hkey]
        exact hmax s hsmem
      · rw [List.count_eq_zero.mpr hsmem]
        exact Nat.zero_le _
    · intro s _ hcount
      refine find?_firstIdx_min _ (a :: t) r hfind s ?_
      rw [hcount, hkey]
      simp

/-- C7 witness: on the two-comment list whose severity sequence is
[harsh, neutral] (a tie at count one each), the batch severity is harsh, the
first-encountered of the tied candidates. -/
theorem C7_overall_severity_witness :
    Severity.harsh ∈ (["This is bad.", "Maybe consider it."].map assessCommentSeverity) ∧
    (∀ s : Severity,
        (["This is bad.", "Maybe consider it."].map assessCommentSeverity).count s ≤
        (["This is bad.", "Maybe consider it."].map assessCommentSeverity).count
          Severity.harsh) ∧
    (∀ s : Severity,
        s ∈ ["This is bad.", "Maybe consider it."].map assessCommentSeverity →
        (["This is bad.", "Maybe consider it."].map assessCommentSeverity).count s =
          (["This is bad.", "Maybe consider it."].map assessCommentSeverity).count
            Severity.harsh →
        firstIdx Severity.harsh
            (["This is bad.", "Maybe consider it."].map assessCommentSeverity) ≤
          firstIdx s (["This is bad.", "Maybe consider it."].map assessCommentSeverity)) :=
  C7_overall_severity_mode ["This is bad.", "Maybe consider it."] Severity.harsh (by decide)

end CodeReviewer
